import Mathlib

set_option maxRecDepth 100000
set_option maxHeartbeats 1600000

/-!
Verification of the papilio_hdmi display driver.

Shallow embedding of the core of the repository:
* the SPI register-bus transport of HDMIController.cpp,
* the framebuffer engine of HQVGA_TFT_eSPI.h and HQVGA_GFX.h,
* the character-grid emulators of VGALiquidCrystal.cpp and
  HDMILiquidCrystal.cpp.

C machine integers are modelled with Nat and Int together with explicit
conversion functions: C unsigned conversions are `% 2^w`, C `%` on int is
truncating division remainder (Int.tmod), and C comparisons that mix an
int operand with an unsigned operand convert the int operand to unsigned
first, exactly as the C usual arithmetic conversions do.
-/

/-- Pointwise store update: models an assignment `a[i] = v` into a byte
array modelled as a function from index to value. -/
def storeUpd (f : Nat → Nat) (i v : Nat) : Nat → Nat :=
  fun j => if j = i then v else f j

/-- C conversion of a signed integer value to uint8_t. -/
def u8 (z : Int) : Nat := (z % 256).toNat

/-- C conversion of a signed integer value to unsigned int (32 bit). -/
def u32 (z : Int) : Nat := (z % 4294967296).toNat

/-- C conversion of an unsigned 32-bit value to int16_t (modular, as on
all supported targets). -/
def i16ofU32 (n : Nat) : Int :=
  if n % 65536 < 32768 then ((n % 65536 : Nat) : Int)
  else ((n % 65536 : Nat) : Int) - 65536

/-- One observable event on the SPI link.  `beginTxn m` records the
`beginTransaction(SPISettings(100000, MSBFIRST, SPI_MODE<m>))` call,
`csLow`/`csHigh` the `digitalWrite(_cs, ...)` calls, and `xfer b` one
`_spi->transfer(b)` call with MOSI byte `b`. -/
inductive SpiEv where
  | beginTxn (mode : Nat)
  | csLow
  | xfer (mosi : Nat)
  | csHigh
  | endTxn
deriving DecidableEq

/-- The bytes shifted out inside a trace, in order. -/
def xferBytes : List SpiEv → List Nat
  | [] => []
  | SpiEv.xfer b :: rest => b :: xferBytes rest
  | _ :: rest => xferBytes rest

/-- The SPI mode selected by the beginTransaction that opens a trace. -/
def txnMode : List SpiEv → Option Nat
  | SpiEv.beginTxn m :: _ => some m
  | _ => none

/-- A well-framed transaction: transaction begin with the given clock
mode, then chip-select asserted, the payload bytes, chip-select
de-asserted, transaction end.  Device-select is low for the whole
frame. -/
def frameEvents (mode : Nat) (bytes : List Nat) : List SpiEv :=
  [SpiEv.beginTxn mode, SpiEv.csLow] ++ bytes.map SpiEv.xfer
    ++ [SpiEv.csHigh, SpiEv.endTxn]

/-- Big-endian byte decomposition (most significant byte first) of a
value into `n` bytes. -/
def beBytes (n v : Nat) : List Nat :=
  (List.range n).map (fun k => (v >>> (8 * (n - 1 - k))) &&& 0xFF)

/-- Big-endian recomposition of a byte list into a value. -/
def beVal (l : List Nat) : Nat :=
  l.foldl (fun acc b => acc * 256 + b) 0

namespace HDMIController

def CMD_WRITE : Nat := 0x01
def CMD_READ : Nat := 0x02
def REG_CHARRAM_CURSOR_X : Nat := 0x21
def REG_CHARRAM_CURSOR_Y : Nat := 0x22
def REG_CHARRAM_CHAR : Nat := 0x24

/-- HDMIController::wishboneWrite8 (HDMIController.cpp, lines 65-78):
SPI_MODE0, then CS low, command byte, the single address byte
`address & 0xFF`, the data byte, CS high. -/
def wishboneWrite8 (address data : Nat) : List SpiEv :=
  [SpiEv.beginTxn 0, SpiEv.csLow,
   SpiEv.xfer CMD_WRITE,
   SpiEv.xfer (address &&& 0xFF),
   SpiEv.xfer data,
   SpiEv.csHigh, SpiEv.endTxn]

/-- HDMIController::wishboneRead8 (HDMIController.cpp, lines 81-99):
SPI_MODE1, CS low, command byte, the address bytes `address & 0xFF` then
`(address >> 8) & 0xFF`, one dummy byte whose returned byte is the
result.  `resp n` is the MISO byte returned by the n-th transfer of the
frame (a uint8_t, hence the `% 256`). -/
def wishboneRead8 (address : Nat) (resp : Nat → Nat) : Nat × List SpiEv :=
  (resp 3 % 256,
   [SpiEv.beginTxn 1, SpiEv.csLow,
    SpiEv.xfer CMD_READ,
    SpiEv.xfer (address &&& 0xFF),
    SpiEv.xfer ((address >>> 8) &&& 0xFF),
    SpiEv.xfer 0x00,
    SpiEv.csHigh, SpiEv.endTxn])

/-- HDMIController::wishboneWrite (HDMIController.cpp, lines 175-194):
32-bit write: SPI_MODE1, CS low, command byte, four address bytes most
significant first, four data bytes most significant first, CS high. -/
def wishboneWrite (address data : Nat) : List SpiEv :=
  [SpiEv.beginTxn 1, SpiEv.csLow,
   SpiEv.xfer CMD_WRITE,
   SpiEv.xfer ((address >>> 24) &&& 0xFF),
   SpiEv.xfer ((address >>> 16) &&& 0xFF),
   SpiEv.xfer ((address >>> 8) &&& 0xFF),
   SpiEv.xfer (address &&& 0xFF),
   SpiEv.xfer ((data >>> 24) &&& 0xFF),
   SpiEv.xfer ((data >>> 16) &&& 0xFF),
   SpiEv.xfer ((data >>> 8) &&& 0xFF),
   SpiEv.xfer (data &&& 0xFF),
   SpiEv.csHigh, SpiEv.endTxn]

/-- HDMIController::wishboneRead (HDMIController.cpp, lines 197-219):
32-bit read: SPI_MODE1, CS low, command byte, four address bytes most
significant first, four dummy bytes; the four returned bytes are ORed
into the result most significant first, exactly as the code does. -/
def wishboneRead (address : Nat) (resp : Nat → Nat) : Nat × List SpiEv :=
  (((((0 ||| ((resp 5 % 256) <<< 24)) ||| ((resp 6 % 256) <<< 16))
      ||| ((resp 7 % 256) <<< 8)) ||| (resp 8 % 256)),
   [SpiEv.beginTxn 1, SpiEv.csLow,
    SpiEv.xfer CMD_READ,
    SpiEv.xfer ((address >>> 24) &&& 0xFF),
    SpiEv.xfer ((address >>> 16) &&& 0xFF),
    SpiEv.xfer ((address >>> 8) &&& 0xFF),
    SpiEv.xfer (address &&& 0xFF),
    SpiEv.xfer 0x00, SpiEv.xfer 0x00, SpiEv.xfer 0x00, SpiEv.xfer 0x00,
    SpiEv.csHigh, SpiEv.endTxn])

/-- Modelled from the spec (claim C1's words, for refutation only): the
frame C1 claims for an 8-bit read: command byte 2, then the two address
bytes most-significant-byte-first, then one dummy byte. -/
def claimedRead8Frame (address : Nat) : List Nat :=
  [CMD_READ, (address >>> 8) &&& 0xFF, address &&& 0xFF, 0x00]

/-- HDMIController::setCursor (HDMIController.cpp, lines 118-123),
as the list of (register, value) bus writes it performs: guarded by
`x < 80 && y < 30`, out-of-range calls perform nothing. -/
def setCursor (x y : Nat) : List (Nat × Nat) :=
  if x < 80 ∧ y < 30 then
    [(REG_CHARRAM_CURSOR_X, x), (REG_CHARRAM_CURSOR_Y, y)]
  else []

/-- HDMIController::writeChar (HDMIController.cpp, lines 130-149), as
the list of (register, value) bus writes it performs.  `dev` is the
device register file read by wishboneRead8 (the cursor Y register). -/
def writeChar (c : Nat) (dev : Nat → Nat) : List (Nat × Nat) :=
  if c = 10 then
    let y := dev REG_CHARRAM_CURSOR_Y
    if y < 29 then setCursor 0 (y + 1) else setCursor 0 0
  else if c = 13 then
    setCursor 0 (dev REG_CHARRAM_CURSOR_Y)
  else if 32 ≤ c ∧ c ≤ 126 then
    [(REG_CHARRAM_CHAR, c)]
  else []

/-- Apply a list of register writes to a device register file. -/
def applyWrites (dev : Nat → Nat) (ws : List (Nat × Nat)) : Nat → Nat :=
  ws.foldl (fun d w => storeUpd d w.1 w.2) dev

end HDMIController

namespace HQVGA_TFT

/-- HQVGA_TFT::color565to332 (HQVGA_TFT_eSPI.h, lines 190-195). -/
def color565to332 (color565 : Nat) : Nat :=
  let r := (color565 >>> 11) &&& 0x1F
  let g := (color565 >>> 5) &&& 0x3F
  let b := color565 &&& 0x1F
  ((r >>> 2) <<< 5) ||| ((g >>> 3) <<< 2) ||| (b >>> 3)

/-- HQVGA_TFT::color332 (HQVGA_TFT_eSPI.h, lines 207-209). -/
def color332 (r g b : Nat) : Nat :=
  ((r >>> 5) <<< 5) ||| ((g >>> 5) <<< 2) ||| (b >>> 6)

/-- The RGB332-to-RGB565 expansion performed by HQVGA_TFT::readPixel
(HQVGA_TFT_eSPI.h, lines 720-724) on the framebuffer byte it reads. -/
def rgb332to565 (c332 : Nat) : Nat :=
  let r := (c332 >>> 5) &&& 0x07
  let g := (c332 >>> 2) &&& 0x07
  let b := c332 &&& 0x03
  (r <<< 13) ||| (g <<< 8) ||| (b <<< 3)

/-- HQVGA_TFT::readPixel (HQVGA_TFT_eSPI.h, lines 717-725).  The local
framebuffer mirror is a function from byte offset to byte value. -/
def readPixel (fb : Nat → Nat) (x y : Int) : Nat :=
  if x < 0 ∨ 160 ≤ x ∨ y < 0 ∨ 120 ≤ y then 0
  else rgb332to565 (fb (y.toNat * 160 + x.toNat))

/-- HQVGA_TFT::drawPixel (HQVGA_TFT_eSPI.h, lines 216-224).  Returns the
new framebuffer mirror and the list of putPixel device transactions
emitted (empty when `_buffered`). -/
def drawPixel (fb : Nat → Nat) (buffered : Bool) (x y : Int) (color : Nat) :
    (Nat → Nat) × List (Int × Int × Nat) :=
  if 0 ≤ x ∧ x < 160 ∧ 0 ≤ y ∧ y < 120 then
    let c332 := color565to332 color
    (storeUpd fb (y.toNat * 160 + x.toNat) c332,
     if buffered then [] else [(x, y, c332)])
  else (fb, [])

/-- HQVGA_TFT::fillRect (HQVGA_TFT_eSPI.h, lines 345-366).  All
coordinates are int16_t and are computed in int; in the comparisons
`x + w > HQVGA_WIDTH` and `y + h > HQVGA_HEIGHT` the int operand is
converted to unsigned int because HQVGA_WIDTH/HQVGA_HEIGHT are unsigned,
and the assignments `w = HQVGA_WIDTH - x` / `h = HQVGA_HEIGHT - y`
compute in unsigned int and convert the result back to int16_t.  Returns
the new framebuffer mirror and the emitted putPixel transactions. -/
def fillRect (fb : Nat → Nat) (buffered : Bool) (x y w h : Int) (color : Nat) :
    (Nat → Nat) × List (Int × Int × Nat) :=
  if w ≤ 0 ∨ h ≤ 0 then (fb, [])
  else
    let xw := if x < 0 then (0, w + x) else (x, w)
    let x := xw.1
    let w := xw.2
    let yh := if y < 0 then (0, h + y) else (y, h)
    let y := yh.1
    let h := yh.2
    let w := if 160 < u32 (x + w) then i16ofU32 (u32 (160 - x)) else w
    let h := if 120 < u32 (y + h) then i16ofU32 (u32 (120 - y)) else h
    if w ≤ 0 ∨ h ≤ 0 then (fb, [])
    else
      let c332 := color565to332 color
      let fb2 := (List.range h.toNat).foldl
        (fun f j => (List.range w.toNat).foldl
          (fun f2 i => storeUpd f2 ((y.toNat + j) * 160 + (x.toNat + i)) c332) f) fb
      let txns := if buffered then []
        else (List.range h.toNat).foldl
          (fun acc j => (List.range w.toNat).foldl
            (fun acc2 i => acc2 ++ [(x + i, y + j, c332)]) acc) []
      (fb2, txns)

end HQVGA_TFT

namespace HQVGA_GFX

/-- HQVGA_GFX::drawPixel (HQVGA_GFX.h, lines 50-53): no local mirror,
just a guarded VGA.putPixel with the color truncated to uint8_t.
Returns the emitted putPixel transactions. -/
def drawPixel (x y : Int) (color : Nat) : List (Int × Int × Nat) :=
  if x < 0 ∨ 160 ≤ x ∨ y < 0 ∨ 120 ≤ y then []
  else [(x, y, color % 256)]

end HQVGA_GFX

namespace VGALiquidCrystal

/-- The mutable state of a VGALiquidCrystal instance
(VGALiquidCrystal.h, lines 82-113) that the character-grid operations
touch.  `ddram` is the 104-byte character store, `chr`/`addr` are the
`currentDisplayChars[32]` fields (`chr` is the character last rendered
at each of the 32 screen cell positions), `AC` is the unsigned address
counter, `shiftChars` the signed viewport offset, `lines` the `_lines`
row-mode flag. -/
@[ext]
structure LCD where
  ddram : Nat → Nat
  chr : Nat → Nat
  addr : Nat → Nat
  shiftChars : Int
  AC : Nat
  lines : Nat
  increment : Int
  display_on : Bool
  scroll_on : Bool

/-- Address computed by setCurrentDisplayChars for first-line cells when
`_lines == 1` (VGALiquidCrystal.cpp, line 288): int arithmetic, C
truncating `%`, stored into the uint8_t `addr` field. -/
def gSingle (shift : Int) (i : Nat) : Nat :=
  u8 (((i : Int) + 80 + shift).tmod 80)

/-- Address computed for first-line cells when `_lines != 1`
(VGALiquidCrystal.cpp, line 292). -/
def gTwoA (shift : Int) (i : Nat) : Nat :=
  u8 (((i : Int) + 40 + shift).tmod 40)

/-- Address computed for second-line cells (16..31) when `_lines != 1`
(VGALiquidCrystal.cpp, lines 294-304): the value is first stored into
the uint8_t `addr` field, then remapped out of the forbidden range if
above 103. -/
def gTwoB (shift : Int) (i : Nat) : Nat :=
  if shift < 0 then
    let t := u8 ((i : Int) + 40 + shift + 48)
    if 103 < t then ((t % 104) + 64) % 256 else t
  else
    let t := u8 ((i : Int) + shift + 48)
    if 103 < t then ((t % 104) + 64) % 256 else t

/-- Assign `addr[i] = g i` for every i in the list, in order (one loop
of setCurrentDisplayChars). -/
def setAddrRange (s : LCD) (l : List Nat) (g : Nat → Nat) : LCD :=
  l.foldl (fun t i => {t with addr := storeUpd t.addr i (g i)}) s

/-- VGALiquidCrystal::setCurrentDisplayChars (VGALiquidCrystal.cpp,
lines 285-306). -/
def setCurrentDisplayChars (s : LCD) : LCD :=
  if s.lines = 1 then
    setAddrRange s (List.range 16) (gSingle s.shiftChars)
  else
    setAddrRange (setAddrRange s (List.range 16) (gTwoA s.shiftChars))
      ((List.range 16).map (fun i => 16 + i)) (gTwoB s.shiftChars)

/-- VGALiquidCrystal::blankDisplay (VGALiquidCrystal.cpp, lines
308-316), character-level effect: every `currentDisplayChars[i].chr`
is set to the blank character 32 (the pixel drawing it also performs is
not part of the tracked state). -/
def blankDisplay (s : LCD) : LCD :=
  (List.range 32).foldl (fun t i => {t with chr := storeUpd t.chr i 32}) s

/-- VGALiquidCrystal::updateCharAt (VGALiquidCrystal.cpp, lines
318-323): redraw cell i only if its backing store byte differs from
what was last rendered there (dirty-cell diffing). -/
def updateCharAt (s : LCD) (i : Nat) : LCD :=
  if s.chr i ≠ s.ddram (s.addr i) then
    {s with chr := storeUpd s.chr i (s.ddram (s.addr i))}
  else s

/-- One update loop of VGALiquidCrystal::updateDisplay. -/
def updateRange (s : LCD) (l : List Nat) : LCD :=
  l.foldl updateCharAt s

/-- The shift wrap of VGALiquidCrystal::updateDisplay (lines 333-342):
reset shiftChars to 0 once it leaves [-79,79] (single-row mode,
`_lines == 0`) or [-39,39] (otherwise). -/
def wrapShift (s : LCD) : LCD :=
  if s.lines = 0 then
    if s.shiftChars > 79 ∨ s.shiftChars < -79 then {s with shiftChars := 0} else s
  else
    if s.shiftChars > 39 ∨ s.shiftChars < -39 then {s with shiftChars := 0} else s

/-- VGALiquidCrystal::updateDisplay (VGALiquidCrystal.cpp, lines
325-355): recompute the display-window mapping, blank and return if the
display is off, wrap the shift value, then redraw the first line and,
if `_lines > 0`, the second line. -/
def updateDisplay (s : LCD) : LCD :=
  let s1 := setCurrentDisplayChars s
  if !s1.display_on then blankDisplay s1
  else
    let s2 := wrapShift s1
    let s3 := updateRange s2 (List.range 16)
    if 0 < s2.lines then updateRange s3 ((List.range 16).map (fun i => 16 + i))
    else s3

/-- VGALiquidCrystal::scrollDisplayLeft (VGALiquidCrystal.cpp, lines
193-196). -/
def scrollDisplayLeft (s : LCD) : LCD :=
  updateDisplay {s with shiftChars := s.shiftChars + 1}

/-- VGALiquidCrystal::scrollDisplayRight (VGALiquidCrystal.cpp, lines
198-201). -/
def scrollDisplayRight (s : LCD) : LCD :=
  updateDisplay {s with shiftChars := s.shiftChars - 1}

/-- k successive scrollDisplayLeft calls. -/
def scrollLeftN (s : LCD) : Nat → LCD
  | 0 => s
  | k + 1 => scrollDisplayLeft (scrollLeftN s k)

/-- k successive scrollDisplayRight calls. -/
def scrollRightN (s : LCD) : Nat → LCD
  | 0 => s
  | k + 1 => scrollDisplayRight (scrollRightN s k)

/-- VGALiquidCrystal::write (VGALiquidCrystal.cpp, lines 357-384).
`AC` is an unsigned int, so `AC += increment` wraps modulo 2^32 and the
two `if (AC < 0)` checks never fire (kept here as the always-false
Nat comparison they compile to). -/
def write (s : LCD) (value : Nat) : LCD :=
  let s0 := {s with ddram := storeUpd s.ddram s.AC value}
  let s1 := if s0.scroll_on then {s0 with shiftChars := s0.shiftChars + s0.increment}
            else s0
  let s2 :=
    if s1.lines = 0 then
      let a := u32 ((s1.AC : Int) + s1.increment)
      let a := if a < 0 then 79 else a
      {s1 with AC := a % 80}
    else
      let a := u32 ((s1.AC : Int) + s1.increment)
      let a := if a < 0 then 103 else a
      let a := if 39 < a ∧ a < 64 then 64 else a
      let a := if 103 < a then 0 else a
      {s1 with AC := a}
  updateDisplay s2

/-- The glyph-table effect of VGALiquidCrystal::createChar
(VGALiquidCrystal.cpp, lines 219-225): the location is masked with 0x7,
then the 8 bitmap rows are copied into chrtbl at offset location*8.
(The remaining lines of createChar redraw affected cells and do not
touch the table.) -/
def createCharTbl (tbl : Nat → Nat) (location : Nat) (cm : Nat → Nat) : Nat → Nat :=
  let loc := location &&& 0x7
  (List.range 8).foldl (fun t i => storeUpd t (loc * 8 + i) (cm i)) tbl

end VGALiquidCrystal

namespace HDMILiquidCrystal

/-- HDMILiquidCrystal::setCursor (HDMILiquidCrystal.cpp, lines 165-172)
followed by updateCursor (lines 174-177): clamp col/row to the window
(uint8_t arithmetic), store them, and forward
`HDMIController::setCursor(offX + col, offY + row)` (uint8_t sums).
Returns the stored (cursorCol, cursorRow) and the emitted register
writes. -/
def setCursor (cols rows offX offY col row : Nat) :
    (Nat × Nat) × List (Nat × Nat) :=
  let c := if cols ≤ col then (cols + 255) % 256 else col
  let r := if rows ≤ row then (rows + 255) % 256 else row
  ((c, r), HDMIController.setCursor ((offX + c) % 256) ((offY + r) % 256))

end HDMILiquidCrystal

namespace VGALiquidCrystal

/-- The cell-to-store-address mapping that setCurrentDisplayChars
computes from the row mode and the shift value; cells it does not touch
keep their previous address. -/
def renderAddr (lines : Nat) (shift : Int) (addr0 : Nat → Nat) : Nat → Nat :=
  fun j =>
    if lines = 1 then (if j < 16 then gSingle shift j else addr0 j)
    else if j < 16 then gTwoA shift j
    else if j < 32 then gTwoB shift j
    else addr0 j

/-- The state reached by updateDisplay from `s` at shift value `sh`
when the display is on and the shift wrap does not fire: addresses
recomputed, every updated cell rendered from the store, cells outside
the updated range untouched. -/
def render (s : LCD) (sh : Int) : LCD :=
  { s with
    shiftChars := sh,
    addr := renderAddr s.lines sh s.addr,
    chr := fun j =>
      if j < 16 ∨ (0 < s.lines ∧ j < 32) then
        s.ddram (renderAddr s.lines sh s.addr j)
      else s.chr j }

/-- The largest shift magnitude updateDisplay keeps (lines 333-342):
79 in single-row mode, 39 otherwise. -/
def lcdBound (lines : Nat) : Int := if lines = 0 then 79 else 39

/-- A state whose display mapping has been rendered: the display is on,
the cell addresses agree with setCurrentDisplayChars at the current
shift, and every cell the update loops touch shows its backing store
byte. -/
def consistent (s : LCD) : Prop :=
  s.display_on = true ∧
  (∀ i < 32, s.addr i = renderAddr s.lines s.shiftChars s.addr i) ∧
  (∀ i < 16, s.chr i = s.ddram (s.addr i)) ∧
  (0 < s.lines → ∀ i < 32, 16 ≤ i → s.chr i = s.ddram (s.addr i))

/-- A concrete rendered two-row-mode-flagged state used as a witness
input (uniform store of blanks, shift 0). -/
def sC6 : LCD :=
  { ddram := fun _ => 32
    chr := fun _ => 32
    addr := renderAddr 0 0 (fun _ => 0)
    shiftChars := 0
    AC := 0
    lines := 0
    increment := 1
    display_on := true
    scroll_on := false }

/-- A concrete single-row-mode state with AC = 0 and increment +1 used
as a witness input. -/
def sC7 : LCD :=
  { ddram := fun _ => 32
    chr := fun _ => 32
    addr := fun _ => 0
    shiftChars := 0
    AC := 0
    lines := 0
    increment := 1
    display_on := true
    scroll_on := false }

/-- A concrete two-row-mode state with AC = 39 used as a witness
input. -/
def sC10 : LCD :=
  { ddram := fun _ => 32
    chr := fun _ => 32
    addr := fun _ => 0
    shiftChars := 0
    AC := 39
    lines := 2
    increment := 1
    display_on := true
    scroll_on := false }

end VGALiquidCrystal

/-- A concrete device register file with the text cursor at row 3,
used as a witness input. -/
def devC8 : Nat → Nat := fun _ => 3

/-! ## Helper lemmas -/

theorem and255_eq_mod (a : Nat) : a &&& 255 = a % 256 := by
  have h : (255 : Nat) = 2 ^ 8 - 1 := by norm_num
  rw [h, Nat.and_pow_two_sub_one_eq_mod]

theorem and7_eq_mod (a : Nat) : a &&& 7 = a % 8 := by
  have h : (7 : Nat) = 2 ^ 3 - 1 := by norm_num
  rw [h, Nat.and_pow_two_sub_one_eq_mod]

theorem shr8_eq_div (a : Nat) : a >>> 8 = a / 256 := by
  rw [Nat.shiftRight_eq_div_pow]

/-- ORing a value into the low zero bits of a shifted value is
addition. -/
theorem or_low_byte (n a b : Nat) (h : b < 2 ^ n) :
    (2 ^ n * a) ||| b = 2 ^ n * a + b :=
  (Nat.mul_add_lt_is_or h a).symm

/-- Capturing four bytes most-significant-first by shifted ORs builds
the big-endian value. -/
theorem or_capture (b0 b1 b2 b3 : Nat)
    (h1 : b1 < 256) (h2 : b2 < 256) (h3 : b3 < 256) :
    (((0 ||| (b0 <<< 24)) ||| (b1 <<< 16)) ||| (b2 <<< 8)) ||| b3
      = ((b0 * 256 + b1) * 256 + b2) * 256 + b3 := by
  have p1 : b1 * 2 ^ 16 < 2 ^ 24 := by
    calc b1 * 2 ^ 16 < 256 * 2 ^ 16 :=
          (Nat.mul_lt_mul_right (by norm_num)).mpr h1
      _ = 2 ^ 24 := by norm_num
  have p2 : b2 * 2 ^ 8 < 2 ^ 16 := by
    calc b2 * 2 ^ 8 < 256 * 2 ^ 8 :=
          (Nat.mul_lt_mul_right (by norm_num)).mpr h2
      _ = 2 ^ 16 := by norm_num
  have p3 : b3 < 2 ^ 8 := by
    calc b3 < 256 := h3
      _ = 2 ^ 8 := by norm_num
  rw [Nat.zero_or, Nat.shiftLeft_eq, Nat.shiftLeft_eq, Nat.shiftLeft_eq]
  rw [show b0 * 2 ^ 24 = 2 ^ 24 * b0 from Nat.mul_comm _ _]
  rw [or_low_byte 24 b0 (b1 * 2 ^ 16) p1]
  rw [show 2 ^ 24 * b0 + b1 * 2 ^ 16 = 2 ^ 16 * (2 ^ 8 * b0 + b1) from by ring]
  rw [or_low_byte 16 (2 ^ 8 * b0 + b1) (b2 * 2 ^ 8) p2]
  rw [show 2 ^ 16 * (2 ^ 8 * b0 + b1) + b2 * 2 ^ 8
        = 2 ^ 8 * (2 ^ 8 * (2 ^ 8 * b0 + b1) + b2) from by ring]
  rw [or_low_byte 8 (2 ^ 8 * (2 ^ 8 * b0 + b1) + b2) b3 p3]
  ring

theorem beBytes4_eq (v : Nat) :
    beBytes 4 v = [(v >>> 24) &&& 255, (v >>> 16) &&& 255,
                   (v >>> 8) &&& 255, v &&& 255] := rfl

/-- Writing `g i` at `base + i` for each `i < n`, in order, yields the
pointwise windowed update. -/
theorem foldl_storeUpd_range (g : Nat → Nat) (n : Nat) :
    ∀ (f : Nat → Nat) (base j : Nat),
      ((List.range n).foldl (fun t i => storeUpd t (base + i) (g i)) f) j
        = if base ≤ j ∧ j < base + n then g (j - base) else f j := by
  induction n with
  | zero =>
    intro f base j
    simp only [List.range_zero, List.foldl_nil]
    rw [if_neg (by omega)]
  | succ n ih =>
    intro f base j
    rw [List.range_succ, List.foldl_append]
    simp only [List.foldl_cons, List.foldl_nil]
    show storeUpd ((List.range n).foldl (fun t i => storeUpd t (base + i) (g i)) f)
        (base + n) (g n) j = _
    simp only [storeUpd]
    rw [ih]
    by_cases hj : j = base + n
    · subst hj
      rw [if_pos rfl, if_pos ⟨by omega, by omega⟩]
      have hsub : base + n - base = n := by omega
      rw [hsub]
    · rw [if_neg hj]
      by_cases hin : base ≤ j ∧ j < base + n
      · rw [if_pos hin, if_pos ⟨hin.1, by omega⟩]
      · rw [if_neg hin, if_neg (fun hc => hin ⟨hc.1, by omega⟩)]

/-! ## Claim C1 -/

/-- C1 counterexample: the 8-bit read at address 0x0102 does not emit
its address bytes most-significant-byte-first: the frame the code sends
is [2, 0x02, 0x01, 0], not the claimed [2, 0x01, 0x02, 0]. -/
theorem C1_counterexample :
    xferBytes (HDMIController.wishboneRead8 0x0102 (fun _ => 0)).2
      ≠ HDMIController.claimedRead8Frame 0x0102 := by
  decide

/-- C1 (amended): every register-bus transaction is a single
chip-select-framed frame whose first byte is the command (1 write,
2 read).  The 32-bit forms emit four address bytes MSB-first, then for
a write four data bytes MSB-first, and for a read four dummy bytes
whose returned bytes are captured MSB-first into the result.  The 8-bit
write emits one address byte - the low byte of the 16-bit address -
then the data byte; the 8-bit read emits its two address bytes
least-significant-byte-first, then one dummy byte whose returned byte
is the result.  Device-select is asserted for the whole frame. -/
theorem C1_bus_framing (a16 d8 a32 d32 : Nat) (resp : Nat → Nat) :
    HDMIController.wishboneWrite8 a16 d8
      = frameEvents 0 ([HDMIController.CMD_WRITE] ++ [a16 % 256] ++ [d8]) ∧
    (HDMIController.wishboneRead8 a16 resp).2
      = frameEvents 1
          ([HDMIController.CMD_READ] ++ [a16 % 256, a16 / 256 % 256] ++ [0]) ∧
    (HDMIController.wishboneRead8 a16 resp).1 = resp 3 % 256 ∧
    HDMIController.wishboneWrite a32 d32
      = frameEvents 1 ([HDMIController.CMD_WRITE] ++ beBytes 4 a32 ++ beBytes 4 d32) ∧
    (HDMIController.wishboneRead a32 resp).2
      = frameEvents 1 ([HDMIController.CMD_READ] ++ beBytes 4 a32 ++ [0, 0, 0, 0]) ∧
    (HDMIController.wishboneRead a32 resp).1
      = beVal [resp 5 % 256, resp 6 % 256, resp 7 % 256, resp 8 % 256] := by
  refine ⟨?_, ?_, rfl, ?_, ?_, ?_⟩
  · simp [HDMIController.wishboneWrite8, frameEvents, and255_eq_mod]
  · simp [HDMIController.wishboneRead8, frameEvents, and255_eq_mod, shr8_eq_div]
  · simp [HDMIController.wishboneWrite, frameEvents, beBytes4_eq]
  · simp [HDMIController.wishboneRead, frameEvents, beBytes4_eq]
  · show (HDMIController.wishboneRead a32 resp).1 = _
    have := or_capture (resp 5 % 256) (resp 6 % 256) (resp 7 % 256) (resp 8 % 256)
      (Nat.mod_lt _ (by norm_num)) (Nat.mod_lt _ (by norm_num))
      (Nat.mod_lt _ (by norm_num))
    simp only [HDMIController.wishboneRead, beVal, List.foldl_cons, List.foldl_nil]
    rw [this]
    ring

/-- C1 witness: the amended framing at a concrete transaction. -/
theorem C1_witness :
    HDMIController.wishboneWrite8 0x8101 0xAB
      = frameEvents 0 ([HDMIController.CMD_WRITE] ++ [0x8101 % 256] ++ [0xAB]) :=
  (C1_bus_framing 0x8101 0xAB 0 0 (fun _ => 0)).1

/-! ## Claim C2 -/

/-- C2 counterexample: the 32-bit write transaction is issued with
SPI_MODE1 (clock-phase 1), not clock-phase 0 as the claim requires for
every write. -/
theorem C2_counterexample :
    txnMode (HDMIController.wishboneWrite 0x0100 0x07) ≠ some 0 := by
  decide

/-- C2 (amended): the 8-bit write uses clock-phase 0 (SPI_MODE0); the
8-bit read, the 32-bit write and the 32-bit read all use clock-phase 1
(SPI_MODE1). -/
theorem C2_clock_phase (a16 d8 a32 d32 : Nat) (resp : Nat → Nat) :
    txnMode (HDMIController.wishboneWrite8 a16 d8) = some 0 ∧
    txnMode (HDMIController.wishboneRead8 a16 resp).2 = some 1 ∧
    txnMode (HDMIController.wishboneWrite a32 d32) = some 1 ∧
    txnMode (HDMIController.wishboneRead a32 resp).2 = some 1 :=
  ⟨rfl, rfl, rfl, rfl⟩

/-! ## Claim C3 -/

/-- C3: color conversion to 3-3-2 is a function (hence deterministic),
and it is idempotent: expanding any 3-3-2 byte to RGB565 the way
readPixel does and feeding it back through color565to332 returns the
identical byte. -/
theorem C3_color_roundtrip (c : Nat) (h : c < 256) :
    HQVGA_TFT.color565to332 (HQVGA_TFT.rgb332to565 c) = c := by
  have all : ∀ f : Fin 256,
      HQVGA_TFT.color565to332 (HQVGA_TFT.rgb332to565 f.val) = f.val := by decide
  exact all ⟨c, h⟩

/-- C3 witness: the round-trip at the concrete byte 0xB7. -/
theorem C3_witness :
    (0xB7 : Nat) < 256 ∧
    HQVGA_TFT.color565to332 (HQVGA_TFT.rgb332to565 0xB7) = 0xB7 :=
  ⟨by decide, C3_color_roundtrip 0xB7 (by decide)⟩

/-! ## Claim C4 -/

/-- C4: a single-pixel write at any coordinate pair outside
[0,160) x [0,120) leaves every byte of the local framebuffer mirror
unchanged and emits no device transaction, in both pixel-write paths
(HQVGA_TFT::drawPixel and HQVGA_GFX::drawPixel). -/
theorem C4_oob_pixel_noop (fb : Nat → Nat) (buffered : Bool) (x y : Int)
    (color565 color8 : Nat)
    (h : ¬ (0 ≤ x ∧ x < 160 ∧ 0 ≤ y ∧ y < 120)) :
    HQVGA_TFT.drawPixel fb buffered x y color565 = (fb, []) ∧
    HQVGA_GFX.drawPixel x y color8 = [] := by
  constructor
  · rw [HQVGA_TFT.drawPixel, if_neg h]
  · rw [HQVGA_GFX.drawPixel, if_pos (by omega)]

/-- C4 witness: the pixel write at (-1, 5) is dropped. -/
theorem C4_witness :
    ¬ ((0 : Int) ≤ -1 ∧ (-1 : Int) < 160 ∧ (0 : Int) ≤ 5 ∧ (5 : Int) < 120) ∧
    (HQVGA_TFT.drawPixel (fun _ => 0) false (-1) 5 0xFFFF = (fun _ => 0, []) ∧
     HQVGA_GFX.drawPixel (-1) 5 0xE0 = []) :=
  ⟨by decide, C4_oob_pixel_noop (fun _ => 0) false (-1) 5 0xFFFF 0xE0 (by decide)⟩

/-! ## Claim C5 -/

/-- C5 is refuted by the code: the rectangle x=-100, w=50 (y=0, h=1)
lies entirely to the left of the framebuffer (its right edge is at
-50 <= 0, so its intersection with the bounds is empty), yet fillRect
fills the whole of row 0 with the converted color (0xF800 converts to
the 3-3-2 byte 224) and emits 160 putPixel transactions: after the
x<0 clip w becomes -50, and the comparison `x + w > HQVGA_WIDTH`
converts -50 to unsigned, so it is taken and w is reset to 160.  The
second `if (w <= 0 || h <= 0) return;` guard, which is clearly intended
to drop such rectangles, is thereby bypassed. -/
theorem C5_fillRect_oob_bug :
    ((-100 : Int) + 50 ≤ 0) ∧
    (HQVGA_TFT.fillRect (fun _ => 0) false (-100) 0 50 1 0xF800).1 0 = 224 ∧
    (HQVGA_TFT.fillRect (fun _ => 0) false (-100) 0 50 1 0xF800).2.length = 160 := by
  refine ⟨by decide, ?_, ?_⟩ <;> decide

/-! ## Claim C8 -/

/-- C8: in device-backed text mode, writing a newline with the cursor
above the last row (y < 29) moves the cursor to column 0 of row y+1;
with the cursor on the last row (y = 29) it wraps to column 0 of row 0;
and in both cases the only registers written are the two cursor
registers, so no character contents are touched (no scroll-up). -/
theorem C8_newline_cursor (dev : Nat → Nat)
    (h : dev HDMIController.REG_CHARRAM_CURSOR_Y ≤ 29) :
    HDMIController.applyWrites dev (HDMIController.writeChar 10 dev)
        HDMIController.REG_CHARRAM_CURSOR_X = 0 ∧
    HDMIController.applyWrites dev (HDMIController.writeChar 10 dev)
        HDMIController.REG_CHARRAM_CURSOR_Y
      = (if dev HDMIController.REG_CHARRAM_CURSOR_Y < 29
         then dev HDMIController.REG_CHARRAM_CURSOR_Y + 1 else 0) ∧
    (∀ w ∈ HDMIController.writeChar 10 dev,
        w.1 = HDMIController.REG_CHARRAM_CURSOR_X ∨
        w.1 = HDMIController.REG_CHARRAM_CURSOR_Y) := by
  by_cases hy : dev HDMIController.REG_CHARRAM_CURSOR_Y < 29
  · have hws : HDMIController.writeChar 10 dev
        = [(HDMIController.REG_CHARRAM_CURSOR_X, 0),
           (HDMIController.REG_CHARRAM_CURSOR_Y,
            dev HDMIController.REG_CHARRAM_CURSOR_Y + 1)] := by
      rw [HDMIController.writeChar, if_pos rfl]
      simp only [hy, if_pos]
      rw [HDMIController.setCursor, if_pos ⟨by omega, by omega⟩]
    rw [hws]
    refine ⟨rfl, ?_, ?_⟩
    · rw [if_pos hy]
      rfl
    · intro w hw
      simp only [List.mem_cons, List.not_mem_nil, or_false] at hw
      rcases hw with hw | hw <;> subst hw
      · exact Or.inl rfl
      · exact Or.inr rfl
  · have hws : HDMIController.writeChar 10 dev
        = [(HDMIController.REG_CHARRAM_CURSOR_X, 0),
           (HDMIController.REG_CHARRAM_CURSOR_Y, 0)] := by
      rw [HDMIController.writeChar, if_pos rfl]
      simp only [hy, if_neg, if_false]
      rw [HDMIController.setCursor, if_pos ⟨by omega, by omega⟩]
    rw [hws]
    refine ⟨rfl, ?_, ?_⟩
    · rw [if_neg hy]
      rfl
    · intro w hw
      simp only [List.mem_cons, List.not_mem_nil, or_false] at hw
      rcases hw with hw | hw <;> subst hw
      · exact Or.inl rfl
      · exact Or.inr rfl

/-- C8 witness: newline with the cursor at row 3 lands at (0, 4) and
writes only the cursor registers. -/
theorem C8_witness :
    devC8 HDMIController.REG_CHARRAM_CURSOR_Y ≤ 29 ∧
    (HDMIController.applyWrites devC8 (HDMIController.writeChar 10 devC8)
        HDMIController.REG_CHARRAM_CURSOR_X = 0 ∧
     HDMIController.applyWrites devC8 (HDMIController.writeChar 10 devC8)
        HDMIController.REG_CHARRAM_CURSOR_Y
       = (if devC8 HDMIController.REG_CHARRAM_CURSOR_Y < 29
          then devC8 HDMIController.REG_CHARRAM_CURSOR_Y + 1 else 0) ∧
     (∀ w ∈ HDMIController.writeChar 10 devC8,
        w.1 = HDMIController.REG_CHARRAM_CURSOR_X ∨
        w.1 = HDMIController.REG_CHARRAM_CURSOR_Y)) :=
  ⟨by decide, C8_newline_cursor devC8 (by decide)⟩

/-! ## Claim C9 -/

/-- C9 counterexample: HDMIController::setCursor with the out-of-range
column 100 emits no register write at all - the call is dropped, not
masked or clamped (an in-range call does emit writes). -/
theorem C9_counterexample :
    HDMIController.setCursor 100 0 = [] ∧
    HDMIController.setCursor 79 0 ≠ [] := by
  decide

/-- C9 (amended): HDMILiquidCrystal::setCursor clamps each
out-of-range coordinate independently to the last column/row of its
window (keeping an in-range coordinate as passed) and the operation
then takes effect there: the clamped pair is stored and the
window-offset cursor position is forwarded to the device, for any
window placed inside the 80x30 device grid; VGALiquidCrystal::createChar
masks the glyph location into 0-7 and rewrites that glyph's bitmap; but
HDMIController::setCursor rejects out-of-range coordinates outright,
performing no write. -/
theorem C9_index_handling (cols rows offX offY col row : Nat)
    (tbl : Nat → Nat) (loc : Nat) (cm : Nat → Nat) (x y : Nat)
    (h1 : 1 ≤ cols) (h2 : offX + cols ≤ 80)
    (h3 : 1 ≤ rows) (h4 : offY + rows ≤ 30)
    (h7 : 80 ≤ x ∨ 30 ≤ y) :
    HDMILiquidCrystal.setCursor cols rows offX offY col row
      = ((if cols ≤ col then cols - 1 else col,
          if rows ≤ row then rows - 1 else row),
         [(HDMIController.REG_CHARRAM_CURSOR_X,
           offX + (if cols ≤ col then cols - 1 else col)),
          (HDMIController.REG_CHARRAM_CURSOR_Y,
           offY + (if rows ≤ row then rows - 1 else row))]) ∧
    VGALiquidCrystal.createCharTbl tbl loc cm
      = VGALiquidCrystal.createCharTbl tbl (loc % 8) cm ∧
    (∀ i < 8, VGALiquidCrystal.createCharTbl tbl loc cm ((loc % 8) * 8 + i) = cm i) ∧
    HDMIController.setCursor x y = [] := by
  refine ⟨?_, ?_, ?_, ?_⟩
  · by_cases hc : cols ≤ col <;> by_cases hr : rows ≤ row
    · simp only [HDMILiquidCrystal.setCursor, if_pos hc, if_pos hr]
      have e1 : (cols + 255) % 256 = cols - 1 := by omega
      have e2 : (rows + 255) % 256 = rows - 1 := by omega
      rw [e1, e2]
      have m1 : (offX + (cols - 1)) % 256 = offX + (cols - 1) := by omega
      have m2 : (offY + (rows - 1)) % 256 = offY + (rows - 1) := by omega
      rw [m1, m2, HDMIController.setCursor, if_pos ⟨by omega, by omega⟩]
    · simp only [HDMILiquidCrystal.setCursor, if_pos hc, if_neg hr]
      have e1 : (cols + 255) % 256 = cols - 1 := by omega
      rw [e1]
      have m1 : (offX + (cols - 1)) % 256 = offX + (cols - 1) := by omega
      have m2 : (offY + row) % 256 = offY + row := by omega
      rw [m1, m2, HDMIController.setCursor, if_pos ⟨by omega, by omega⟩]
    · simp only [HDMILiquidCrystal.setCursor, if_neg hc, if_pos hr]
      have e2 : (rows + 255) % 256 = rows - 1 := by omega
      rw [e2]
      have m1 : (offX + col) % 256 = offX + col := by omega
      have m2 : (offY + (rows - 1)) % 256 = offY + (rows - 1) := by omega
      rw [m1, m2, HDMIController.setCursor, if_pos ⟨by omega, by omega⟩]
    · simp only [HDMILiquidCrystal.setCursor, if_neg hc, if_neg hr]
      have m1 : (offX + col) % 256 = offX + col := by omega
      have m2 : (offY + row) % 256 = offY + row := by omega
      rw [m1, m2, HDMIController.setCursor, if_pos ⟨by omega, by omega⟩]
  · rw [VGALiquidCrystal.createCharTbl, VGALiquidCrystal.createCharTbl]
    rw [and7_eq_mod, and7_eq_mod]
    have h8 : loc % 8 % 8 = loc % 8 := Nat.mod_mod_of_dvd loc dvd_rfl
    rw [h8]
  · intro i hi
    rw [VGALiquidCrystal.createCharTbl]
    rw [and7_eq_mod]
    rw [foldl_storeUpd_range cm 8 tbl (loc % 8 * 8) (loc % 8 * 8 + i)]
    rw [if_pos ⟨by omega, by omega⟩]
    have : loc % 8 * 8 + i - loc % 8 * 8 = i := by omega
    rw [this]
  · rw [HDMIController.setCursor, if_neg (by omega)]

/-- C9 witness: the mixed call setCursor(40,1) on a 16x2 window at
device offset (2,3) clamps only the column, stores (15,1) and forwards
the device cursor write (17,4); createChar at location 11 is masked to
location 3; HDMIController::setCursor(100,0) writes nothing. -/
theorem C9_witness :
    HDMILiquidCrystal.setCursor 16 2 2 3 40 1
      = ((15, 1),
         [(HDMIController.REG_CHARRAM_CURSOR_X, 17),
          (HDMIController.REG_CHARRAM_CURSOR_Y, 4)]) ∧
    VGALiquidCrystal.createCharTbl (fun _ => 0) 11 (fun i => i + 1)
      = VGALiquidCrystal.createCharTbl (fun _ => 0) (11 % 8) (fun i => i + 1) ∧
    (∀ i < 8, VGALiquidCrystal.createCharTbl (fun _ => 0) 11 (fun i => i + 1)
        ((11 % 8) * 8 + i) = i + 1) ∧
    HDMIController.setCursor 100 0 = [] :=
  C9_index_handling 16 2 2 3 40 1 (fun _ => 0) 11 (fun i => i + 1) 100 0
    (by decide) (by decide) (by decide) (by decide) (Or.inl (by decide))

/-! ## VGALiquidCrystal machinery -/

namespace VGALiquidCrystal

theorem setAddrRange_eq (g : Nat → Nat) :
    ∀ (l : List Nat) (s : LCD),
      setAddrRange s l g
        = {s with addr := fun j => if j ∈ l then g j else s.addr j} := by
  intro l
  induction l with
  | nil =>
    intro s
    show s = {s with addr := fun j => if j ∈ ([] : List Nat) then g j else s.addr j}
    refine congrArg (fun a => {s with addr := a}) ?_
    funext j
    simp
  | cons i rest ih =>
    intro s
    show setAddrRange {s with addr := storeUpd s.addr i (g i)} rest g = _
    rw [ih]
    refine congrArg (fun a => {s with addr := a}) ?_
    funext j
    by_cases hr : j ∈ rest
    · simp [hr]
    · by_cases hi : j = i
      · subst hi
        simp [storeUpd, hr]
      · simp [storeUpd, hr, hi]

theorem blankDisplay_eq (s : LCD) :
    blankDisplay s = {s with chr := fun j => if j < 32 then 32 else s.chr j} := by
  have aux : ∀ (l : List Nat) (t : LCD),
      l.foldl (fun t i => {t with chr := storeUpd t.chr i 32}) t
        = {t with chr := fun j => if j ∈ l then 32 else t.chr j} := by
    intro l
    induction l with
    | nil =>
      intro t
      refine congrArg (fun c => {t with chr := c}) ?_
      funext j
      simp
    | cons i rest ih =>
      intro t
      show List.foldl _ {t with chr := storeUpd t.chr i 32} rest = _
      rw [ih]
      refine congrArg (fun c => {t with chr := c}) ?_
      funext j
      by_cases hr : j ∈ rest
      · simp [hr]
      · by_cases hi : j = i
        · subst hi
          simp [storeUpd, hr]
        · simp [storeUpd, hr, hi]
  rw [blankDisplay, aux]
  refine congrArg (fun c => {s with chr := c}) ?_
  funext j
  simp [List.mem_range]

theorem updateCharAt_eq (s : LCD) (i : Nat) :
    updateCharAt s i = {s with chr := storeUpd s.chr i (s.ddram (s.addr i))} := by
  rw [updateCharAt]
  by_cases h : s.chr i ≠ s.ddram (s.addr i)
  · rw [if_pos h]
  · rw [if_neg h]
    push_neg at h
    show {s with chr := s.chr} = _
    refine congrArg (fun c => {s with chr := c}) ?_
    funext j
    by_cases hj : j = i
    · subst hj
      simp [storeUpd, h]
    · simp [storeUpd, hj]

theorem updateRange_eq :
    ∀ (l : List Nat) (s : LCD),
      updateRange s l
        = {s with chr := fun j => if j ∈ l then s.ddram (s.addr j) else s.chr j} := by
  intro l
  induction l with
  | nil =>
    intro s
    refine congrArg (fun c => {s with chr := c}) ?_
    funext j
    simp
  | cons i rest ih =>
    intro s
    show updateRange (updateCharAt s i) rest = _
    rw [updateCharAt_eq, ih]
    refine congrArg (fun c => {s with chr := c}) ?_
    funext j
    by_cases hr : j ∈ rest
    · simp [hr]
    · by_cases hi : j = i
      · subst hi
        simp [storeUpd, hr]
      · simp [storeUpd, hr, hi]

theorem mem_secondRange (j : Nat) :
    (j ∈ (List.range 16).map (fun i => 16 + i)) ↔ (16 ≤ j ∧ j < 32) := by
  simp only [List.mem_map, List.mem_range]
  constructor
  · rintro ⟨i, hi, rfl⟩
    omega
  · intro h
    exact ⟨j - 16, by omega, by omega⟩

theorem setCurrentDisplayChars_eq (s : LCD) :
    setCurrentDisplayChars s
      = {s with addr := renderAddr s.lines s.shiftChars s.addr} := by
  rw [setCurrentDisplayChars]
  by_cases hl : s.lines = 1
  · rw [if_pos hl, setAddrRange_eq]
    refine congrArg (fun a => {s with addr := a}) ?_
    funext j
    simp only [renderAddr, hl, if_true, List.mem_range]
  · rw [if_neg hl, setAddrRange_eq, setAddrRange_eq]
    refine congrArg (fun a => {s with addr := a}) ?_
    funext j
    simp only [renderAddr, hl, mem_secondRange, List.mem_range, if_false]
    split_ifs <;> first | rfl | omega

theorem wrapShift_eq_self (s : LCD)
    (hlo : -(lcdBound s.lines) ≤ s.shiftChars)
    (hhi : s.shiftChars ≤ lcdBound s.lines) :
    wrapShift s = s := by
  rw [wrapShift]
  by_cases hl : s.lines = 0
  · rw [if_pos hl, if_neg (by simp [lcdBound, hl] at hlo hhi; omega)]
  · rw [if_neg hl, if_neg (by simp [lcdBound, hl] at hlo hhi; omega)]

theorem updateDisplay_preserves (s : LCD) :
    (updateDisplay s).ddram = s.ddram ∧ (updateDisplay s).AC = s.AC ∧
    (updateDisplay s).lines = s.lines ∧
    (updateDisplay s).increment = s.increment ∧
    (updateDisplay s).scroll_on = s.scroll_on ∧
    (updateDisplay s).display_on = s.display_on := by
  simp only [updateDisplay, setCurrentDisplayChars_eq, wrapShift]
  split_ifs <;> simp [blankDisplay_eq, updateRange_eq]

theorem updateDisplay_on_eq (s : LCD) (sh : Int) (hd : s.display_on = true)
    (hlo : -(lcdBound s.lines) ≤ sh) (hhi : sh ≤ lcdBound s.lines) :
    updateDisplay {s with shiftChars := sh} = render s sh := by
  have hcdc : setCurrentDisplayChars {s with shiftChars := sh}
      = {s with shiftChars := sh, addr := renderAddr s.lines sh s.addr} :=
    setCurrentDisplayChars_eq {s with shiftChars := sh}
  have hwrap :
      wrapShift {s with shiftChars := sh, addr := renderAddr s.lines sh s.addr}
      = {s with shiftChars := sh, addr := renderAddr s.lines sh s.addr} :=
    wrapShift_eq_self _ hlo hhi
  simp only [updateDisplay]
  rw [hcdc]
  rw [if_neg (by simp [hd])]
  rw [hwrap, updateRange_eq]
  by_cases h0 : 0 < s.lines
  · rw [if_pos h0, updateRange_eq, render]
    refine congrArg
      (fun c =>
        {s with shiftChars := sh, addr := renderAddr s.lines sh s.addr, chr := c}) ?_
    funext j
    simp only [mem_secondRange, List.mem_range]
    split_ifs <;> first | rfl | omega
  · rw [if_neg h0, updateRange_eq, render]
    refine congrArg
      (fun c =>
        {s with shiftChars := sh, addr := renderAddr s.lines sh s.addr, chr := c}) ?_
    funext j
    simp only [List.mem_range]
    split_ifs <;> first | rfl | omega

theorem renderAddr_render (s : LCD) (sh1 sh2 : Int) :
    renderAddr (render s sh1).lines sh2 (render s sh1).addr
      = renderAddr s.lines sh2 s.addr := by
  funext j
  simp only [render, renderAddr]
  split_ifs <;> rfl

theorem render_render (s : LCD) (sh1 sh2 : Int) :
    render (render s sh1) sh2 = render s sh2 := by
  have ha := renderAddr_render s sh1 sh2
  apply LCD.ext
  · rfl
  · funext j
    show (if j < 16 ∨ 0 < (render s sh1).lines ∧ j < 32 then
            (render s sh1).ddram (renderAddr (render s sh1).lines sh2 (render s sh1).addr j)
          else (render s sh1).chr j)
        = (if j < 16 ∨ 0 < s.lines ∧ j < 32 then
            s.ddram (renderAddr s.lines sh2 s.addr j)
          else s.chr j)
    rw [ha]
    simp only [render]
    split_ifs <;> rfl
  · exact ha
  · rfl
  · rfl
  · rfl
  · rfl
  · rfl
  · rfl

theorem render_consistent (s : LCD) (hc : consistent s) :
    render s s.shiftChars = s := by
  obtain ⟨hd, haddr, hchr1, hchr2⟩ := hc
  have ha : renderAddr s.lines s.shiftChars s.addr = s.addr := by
    funext j
    by_cases hj : j < 32
    · exact (haddr j hj).symm
    · simp only [renderAddr]
      split_ifs <;> first | rfl | omega
  apply LCD.ext
  · rfl
  · funext j
    show (if j < 16 ∨ 0 < s.lines ∧ j < 32 then
            s.ddram (renderAddr s.lines s.shiftChars s.addr j)
          else s.chr j) = s.chr j
    rw [ha]
    by_cases hcond : j < 16 ∨ 0 < s.lines ∧ j < 32
    · rw [if_pos hcond]
      rcases hcond with h16 | ⟨hl, h32⟩
      · exact (hchr1 j h16).symm
      · by_cases h16 : j < 16
        · exact (hchr1 j h16).symm
        · exact (hchr2 hl j h32 (by omega)).symm
    · rw [if_neg hcond]
  · exact ha
  · rfl
  · rfl
  · rfl
  · rfl
  · rfl
  · rfl

theorem scrollLeftN_eq (s : LCD) (hd : s.display_on = true) :
    ∀ k : Nat, -(lcdBound s.lines) ≤ s.shiftChars →
      s.shiftChars + (k + 1 : Nat) ≤ lcdBound s.lines →
      scrollLeftN s (k + 1) = render s (s.shiftChars + (k + 1 : Nat)) := by
  intro k
  induction k with
  | zero =>
    intro hlo hhi
    show scrollDisplayLeft s = _
    rw [scrollDisplayLeft]
    rw [updateDisplay_on_eq s (s.shiftChars + 1) hd (by omega)
      (by push_cast at hhi; omega)]
    norm_num
  | succ k ih =>
    intro hlo hhi
    show scrollDisplayLeft (scrollLeftN s (k + 1)) = _
    rw [ih hlo (by push_cast at hhi ⊢; omega)]
    rw [scrollDisplayLeft]
    rw [show ({render s (s.shiftChars + (k + 1 : Nat)) with
          shiftChars := (render s (s.shiftChars + (k + 1 : Nat))).shiftChars + 1} : LCD)
        = {render s (s.shiftChars + (k + 1 : Nat)) with
          shiftChars := s.shiftChars + (k + 1 : Nat) + 1} from rfl]
    have hb1 : -(lcdBound s.lines) ≤ s.shiftChars + (k + 1 : Nat) + 1 := by
      push_cast
      omega
    have hb2 : s.shiftChars + (k + 1 : Nat) + 1 ≤ lcdBound s.lines := by
      push_cast at hhi ⊢
      omega
    rw [updateDisplay_on_eq (render s (s.shiftChars + (k + 1 : Nat)))
      (s.shiftChars + (k + 1 : Nat) + 1) hd hb1 hb2]
    rw [render_render]
    have : s.shiftChars + (k + 1 : Nat) + 1 = s.shiftChars + ((k + 1 + 1 : Nat) : Int) := by
      push_cast
      ring
    rw [this]

theorem scrollRightN_eq (s : LCD) (hd : s.display_on = true) :
    ∀ (m : Nat) (sh : Int), -(lcdBound s.lines) ≤ sh →
      sh + m ≤ lcdBound s.lines →
      scrollRightN (render s (sh + m)) m = render s sh := by
  intro m
  induction m with
  | zero =>
    intro sh hlo hhi
    show render s (sh + (0 : Nat)) = render s sh
    norm_num
  | succ m ih =>
    intro sh hlo hhi
    show scrollDisplayRight (scrollRightN (render s (sh + (m + 1 : Nat))) m) = render s sh
    have hcast : sh + ((m + 1 : Nat) : Int) = (sh + 1) + (m : Nat) := by
      push_cast
      ring
    rw [hcast, ih (sh + 1) (by omega) (by push_cast at hhi ⊢; omega)]
    rw [scrollDisplayRight]
    rw [show ({render s (sh + 1) with
          shiftChars := (render s (sh + 1)).shiftChars - 1} : LCD)
        = {render s (sh + 1) with shiftChars := sh + 1 - 1} from rfl]
    have hb1 : -(lcdBound s.lines) ≤ sh + 1 - 1 := by omega
    have hb2 : sh + 1 - 1 ≤ lcdBound s.lines := by
      push_cast at hhi ⊢
      omega
    rw [updateDisplay_on_eq (render s (sh + 1)) (sh + 1 - 1) hd hb1 hb2]
    rw [render_render]
    norm_num



/-- C6: from any rendered viewport state, k scrollDisplayLeft calls
followed by k scrollDisplayRight calls restore the entire state. -/

theorem write_lines (s : LCD) (v : Nat) : (write s v).lines = s.lines := by
  simp only [write]
  split_ifs <;> exact (updateDisplay_preserves _).2.2.1

theorem write_increment (s : LCD) (v : Nat) :
    (write s v).increment = s.increment := by
  simp only [write]
  split_ifs <;> exact (updateDisplay_preserves _).2.2.2.1

theorem write_ddram (s : LCD) (v : Nat) :
    (write s v).ddram = storeUpd s.ddram s.AC v := by
  simp only [write]
  split_ifs <;> exact (updateDisplay_preserves _).1

theorem natNegGuard (a b : Nat) : (if a < 0 then b else a) = a := by
  simp

theorem updateDisplay_AC (s : LCD) : (updateDisplay s).AC = s.AC :=
  (updateDisplay_preserves s).2.1

theorem write_AC_single (s : LCD) (v : Nat) (h0 : s.lines = 0) :
    (write s v).AC = u32 ((s.AC : Int) + s.increment) % 80 := by
  by_cases hsc : s.scroll_on = true
  · simp [write, natNegGuard, updateDisplay_AC, hsc, h0]
  · simp [write, natNegGuard, updateDisplay_AC, hsc, h0]

theorem write_AC_two (s : LCD) (v : Nat) (h0 : ¬ s.lines = 0) :
    (write s v).AC
      = (if 103 < (if 39 < u32 ((s.AC : Int) + s.increment) ∧
                      u32 ((s.AC : Int) + s.increment) < 64
                   then 64 else u32 ((s.AC : Int) + s.increment))
         then 0
         else (if 39 < u32 ((s.AC : Int) + s.increment) ∧
                  u32 ((s.AC : Int) + s.increment) < 64
               then 64 else u32 ((s.AC : Int) + s.increment))) := by
  by_cases hsc : s.scroll_on = true
  · simp [write, natNegGuard, updateDisplay_AC, hsc, h0]
  · simp [write, natNegGuard, updateDisplay_AC, hsc, h0]

theorem write_fold_AC :
    ∀ (vs : List Nat) (s : LCD), s.lines = 0 → s.increment = 1 →
      s.AC < 80 → (vs.foldl write s).AC = (s.AC + vs.length) % 80 := by
  intro vs
  induction vs with
  | nil =>
    intro s h0 h1 hA
    simp [Nat.mod_eq_of_lt hA]
  | cons v rest ih =>
    intro s h0 h1 hA
    show (rest.foldl write (write s v)).AC = _
    have hAC : (write s v).AC = (s.AC + 1) % 80 := by
      rw [write_AC_single s v h0, h1]
      have hu : u32 ((s.AC : Int) + 1) = s.AC + 1 := by
        simp only [u32]
        omega
      rw [hu]
    rw [ih (write s v) (by rw [write_lines, h0]) (by rw [write_increment, h1])
      (by rw [hAC]; exact Nat.mod_lt _ (by norm_num))]
    rw [hAC]
    simp only [List.length_cons]
    omega

/-! ## Claim C6 -/

/-- C6: from any rendered viewport state whose shift value stays inside
the no-reset window throughout (so no shift ever crosses the store
wraparound reset), k scrollDisplayLeft calls followed by k
scrollDisplayRight calls restore the viewport offset shiftChars and the
rendered character of every visible cell - in fact the entire state. -/
theorem C6_scroll_roundtrip (s : LCD) (k : Nat) (hc : consistent s)
    (hlo : -(lcdBound s.lines) ≤ s.shiftChars)
    (hhi : s.shiftChars + k ≤ lcdBound s.lines) :
    scrollRightN (scrollLeftN s k) k = s := by
  cases k with
  | zero => rfl
  | succ k =>
    rw [scrollLeftN_eq s hc.1 k hlo (by push_cast at hhi ⊢; omega)]
    have h := scrollRightN_eq s hc.1 (k + 1) s.shiftChars hlo
      (by push_cast at hhi ⊢; omega)
    rw [h]
    exact render_consistent s hc

/-- C6 witness: one scroll-left then one scroll-right on a concrete
rendered state restores it. -/
theorem C6_witness : scrollRightN (scrollLeftN sC6 1) 1 = sC6 :=
  C6_scroll_roundtrip sC6 1 (by unfold consistent; decide) (by decide) (by decide)

/-! ## Claim C7 -/

/-- C7: in single-row mode with write increment +1, writing the N
characters of `vs` starting from AC = 0 leaves AC = N mod 80. -/
theorem C7_cursor_advance (s : LCD) (vs : List Nat)
    (h0 : s.lines = 0) (h1 : s.increment = 1) (hA : s.AC = 0) :
    (vs.foldl write s).AC = vs.length % 80 := by
  have h := write_fold_AC vs s h0 h1 (by omega)
  rw [hA] at h
  simpa using h

/-- C7 witness: three writes from AC = 0 leave AC = 3 mod 80. -/
theorem C7_witness :
    sC7.lines = 0 ∧ sC7.increment = 1 ∧ sC7.AC = 0 ∧
    (([72, 73, 33] : List Nat).foldl write sC7).AC
      = ([72, 73, 33] : List Nat).length % 80 :=
  ⟨rfl, rfl, rfl, C7_cursor_advance sC7 [72, 73, 33] rfl rfl rfl⟩

/-! ## Claim C10 -/

/-- C10: for every call to write, if AC is at most 103 on entry then
the single store access ddram[AC] is inside the 104-byte store (and
every other store byte is untouched), and on exit AC is in [0,79] in
single-row mode and in [0,39] or [64,103] in two-row mode, whatever the
entry value of AC and the configured increment. -/
theorem C10_write_safety (s : LCD) (v : Nat) :
    (s.AC ≤ 103 → s.AC < 104 ∧ (write s v).ddram s.AC = v) ∧
    (∀ j, j ≠ s.AC → (write s v).ddram j = s.ddram j) ∧
    (s.lines = 0 → (write s v).AC < 80) ∧
    (¬ s.lines = 0 → (write s v).AC ≤ 103 ∧
      ((write s v).AC ≤ 39 ∨ 64 ≤ (write s v).AC)) := by
  refine ⟨fun h => ⟨by omega, ?_⟩, ?_, ?_, ?_⟩
  · rw [write_ddram]
    simp [storeUpd]
  · intro j hj
    rw [write_ddram]
    simp [storeUpd, hj]
  · intro h0
    rw [write_AC_single s v h0]
    exact Nat.mod_lt _ (by norm_num)
  · intro h0
    rw [write_AC_two s v h0]
    split_ifs <;> omega

/-- C10 witness: the safety conclusion at a concrete two-row state with
AC = 39. -/
theorem C10_witness :
    (sC10.AC ≤ 103 → sC10.AC < 104 ∧ (write sC10 65).ddram sC10.AC = 65) ∧
    (∀ j, j ≠ sC10.AC → (write sC10 65).ddram j = sC10.ddram j) ∧
    (sC10.lines = 0 → (write sC10 65).AC < 80) ∧
    (¬ sC10.lines = 0 → (write sC10 65).AC ≤ 103 ∧
      ((write sC10 65).AC ≤ 39 ∨ 64 ≤ (write sC10 65).AC)) :=
  C10_write_safety sC10 65

end VGALiquidCrystal
